import Mathlib

/-!
Verification of the real-time incident response platform (Node.js + Express +
Socket.io + MongoDB) against its natural-language specification.

This file is a shallow embedding of the server's incident logic:

* the status state machine and the streaming status-update handler
  (socket layer, `STATUS_TRANSITIONS` / `isValidTransition` /
  `handleStatusUpdate`);
* `incidentService` (`createIncident`, `updateStatus`, `assignUser`,
  `unassignUser`, `addNote`, `toggleActionItem`) together with the
  `Incident.js` mongoose pre-save hook;
* `presenceService` (`joinIncident`, `updateActivity`) over the
  `Presence` collection;
* the ephemeral focus registry with its 100 ms throttle
  (`shouldThrottleFocus` / `handleFocusUpdate`);
* `authService.register` and the `POST /auth/register` route.

Mongo object ids and socket ids are modelled as `Nat`; JS strings that only
carry text content are modelled as `List Char` (so JS `trim` / `length`
become list operations); timestamps are `Nat` milliseconds except in the
focus throttle where JS subtraction on `Date.now()` values is modelled on
`Int`.  Database writes are modelled by explicit state passing; JS `throw`
becomes `Except.error`, so an `error` result produces no successor state
(the caller keeps the old state, matching the handlers which persist nothing
once they throw).
-/

namespace IncidentPlatform

/-- Incident status enum of the `Incident.js` schema. -/
inductive Status
  | investigating
  | identified
  | monitoring
  | resolved
deriving DecidableEq, Fintype

/-- Severity enum of the `Incident.js` schema. -/
inductive Severity
  | critical
  | high
  | medium
  | low
deriving DecidableEq

/-- Role enum of the `User.js` schema. -/
inductive Role
  | admin
  | responder
  | viewer
deriving DecidableEq

/-- Error kinds of the spec's error taxonomy (section 7); the JS code throws
`Error` objects whose message and HTTP status classify into these kinds. -/
inductive Err
  | forbidden
  | validation
  | conflict
  | notFound
deriving DecidableEq

/-- The `action` discriminator of assignment audit records. -/
inductive AssignAction
  | assigned
  | unassigned
deriving DecidableEq

/-- The `type` enum of the `IncidentUpdate.js` schema. -/
inductive UpdateType
  | status_change
  | assignment
  | note
  | action_item
deriving DecidableEq

/-- An authenticated principal as seen by the socket layer (`socket.user`). -/
structure User where
  id : Nat
  email : String
  name : String
  role : Role
deriving DecidableEq

/-- `WRITE_ROLES = ['admin', 'responder']` from the socket module. -/
def WRITE_ROLES : List Role := [Role.admin, Role.responder]

/-- `canWrite = (user) => WRITE_ROLES.includes(user.role)`. -/
def canWrite (user : User) : Bool := WRITE_ROLES.contains user.role

/-- The `STATUS_TRANSITIONS` table of the socket module: key = current
status, value = allowed next statuses. -/
def STATUS_TRANSITIONS : Status → List Status
  | Status.investigating => [Status.identified, Status.monitoring, Status.resolved]
  | Status.identified => [Status.investigating, Status.monitoring, Status.resolved]
  | Status.monitoring => [Status.investigating, Status.identified, Status.resolved]
  | Status.resolved => [Status.investigating]

/-- `isValidTransition(currentStatus, newStatus)` from the socket module:
same-state is rejected, otherwise membership in the transition table. -/
def isValidTransition (currentStatus newStatus : Status) : Bool :=
  if currentStatus = newStatus then false
  else (STATUS_TRANSITIONS currentStatus).contains newStatus

/-- The transition table exactly as the claim words it (spec side of the
refinement, to be compared with the code's `STATUS_TRANSITIONS`). -/
def claimTransitionTable : Status → List Status
  | Status.investigating => [Status.identified, Status.monitoring, Status.resolved]
  | Status.identified => [Status.investigating, Status.monitoring, Status.resolved]
  | Status.monitoring => [Status.investigating, Status.identified, Status.resolved]
  | Status.resolved => [Status.investigating]

/-- The mutable incident projection (`Incident.js` schema fields). -/
structure Incident where
  title : List Char
  description : List Char
  severity : Severity
  status : Status
  createdBy : Nat
  commander : Option Nat
  assignees : List Nat
  resolvedAt : Option Nat
  createdAt : Nat
deriving DecidableEq

/-- The `content` sub-document of `IncidentUpdate.js`: the schema is a bag of
optional fields shared by every update kind. -/
structure UpdateContent where
  previousStatus : Option Status := none
  newStatus : Option Status := none
  action : Option AssignAction := none
  targetUserId : Option Nat := none
  text : Option (List Char) := none
  completed : Option Bool := none
deriving DecidableEq

/-- An audit record (`IncidentUpdate.js`). -/
structure IncidentUpdate where
  id : Nat
  incidentId : Nat
  userId : Nat
  type : UpdateType
  content : UpdateContent
  createdAt : Nat
deriving DecidableEq

/-- A single incident together with its audit log, the part of the database
a mutation touches.  `updates` is kept in insertion order, which coincides
with `createdAt` order whenever the clock is monotone (stated where a claim
needs it). -/
structure IncidentState where
  incidentId : Nat
  incident : Incident
  updates : List IncidentUpdate
deriving DecidableEq

/-- The `incidentSchema.pre('save')` hook: when the save modified `status`
to `resolved` and `resolvedAt` is still null, stamp `resolvedAt` with the
current time. -/
def incidentPreSave (now : Nat) (statusModified : Bool) (inc : Incident) : Incident :=
  if statusModified ∧ inc.status = Status.resolved ∧ inc.resolvedAt = none then
    { inc with resolvedAt := some now }
  else inc

/-- Input of `createIncident` (`{title, severity, description?}`). -/
structure CreateIncidentData where
  title : List Char
  severity : Severity
  description : List Char := []
deriving DecidableEq

/-- `incidentService.createIncident`: creates the incident with the schema
default status `investigating`, commander = creator, and seeds the audit
trail with a `status_change` record `{previousStatus: null, newStatus}`. -/
def createIncident (now : Nat) (data : CreateIncidentData) (userId incidentId : Nat) :
    IncidentState :=
  let inc : Incident :=
    { title := data.title
      description := data.description
      severity := data.severity
      status := Status.investigating
      createdBy := userId
      commander := some userId
      assignees := []
      resolvedAt := none
      createdAt := now }
  { incidentId := incidentId
    incident := incidentPreSave now true inc
    updates := [{ id := 0
                  incidentId := incidentId
                  userId := userId
                  type := UpdateType.status_change
                  content := { previousStatus := none
                               newStatus := some Status.investigating }
                  createdAt := now }] }

/-- `incidentService.updateStatus`: rejects a same-status save, otherwise
persists the new status (running the pre-save hook) and appends the
`status_change` audit record. -/
def updateStatus (now : Nat) (st : IncidentState) (newStatus : Status) (userId : Nat) :
    Except Err IncidentState :=
  let previousStatus := st.incident.status
  if previousStatus = newStatus then Except.error Err.conflict
  else
    Except.ok
      { st with
        incident := incidentPreSave now true { st.incident with status := newStatus }
        updates := st.updates ++
          [{ id := st.updates.length
             incidentId := st.incidentId
             userId := userId
             type := UpdateType.status_change
             content := { previousStatus := some previousStatus
                          newStatus := some newStatus }
             createdAt := now }] }

/-- The streaming `incident:updateStatus` handler: authorize, then validate
the transition against the state machine, then delegate to the service. -/
def handleStatusUpdate (now : Nat) (user : User) (st : IncidentState) (status : Status) :
    Except Err IncidentState :=
  if !(canWrite user) then Except.error Err.forbidden
  else if !(isValidTransition st.incident.status status) then Except.error Err.conflict
  else updateStatus now st status user.id

/-- Sequential application of streaming status-update commands, each with
its own `Date.now()` timestamp; stops at the first rejected command. -/
def runTransitions (user : User) (st : IncidentState) :
    List (Nat × Status) → Except Err IncidentState
  | [] => Except.ok st
  | (t, s) :: rest =>
    match handleStatusUpdate t user st s with
    | Except.error e => Except.error e
    | Except.ok st' => runTransitions user st' rest

/-- An audit log chains from `prev` when the head record's `previousStatus`
equals `prev` and the tail chains from the head's `newStatus`. -/
def chainedFrom : Option Status → List IncidentUpdate → Bool
  | _, [] => true
  | prev, u :: rest =>
    decide (u.content.previousStatus = prev) && chainedFrom u.content.newStatus rest

/-- The `newStatus` of the last record of an audit log (or the seed value
when the log is empty). -/
def endStatus : Option Status → List IncidentUpdate → Option Status
  | prev, [] => prev
  | _, u :: rest => endStatus u.content.newStatus rest

/-- Time of the first requested transition to `resolved` in a command
sequence, `none` when there is none. -/
def firstResolvedTime : List (Nat × Status) → Option Nat
  | [] => none
  | (t, s) :: rest => if s = Status.resolved then some t else firstResolvedTime rest

/-- Sample writer principal used by concrete witnesses. -/
def adminUser : User := { id := 1, email := "a@example.com", name := "A", role := Role.admin }

/-- Sample viewer principal used by concrete witnesses. -/
def viewerUser : User := { id := 3, email := "v@example.com", name := "V", role := Role.viewer }

/-- Sample creation payload used by concrete witnesses. -/
def sampleData : CreateIncidentData :=
  { title := ['D', 'B'], severity := Severity.high, description := [] }

/-- Sample freshly-created incident state used by concrete witnesses. -/
def sampleState : IncidentState := createIncident 10 sampleData 1 42

/-- Sample incident state already in status `resolved`, used by concrete
witnesses. -/
def resolvedState : IncidentState :=
  { sampleState with incident := { sampleState.incident with status := Status.resolved } }

/-- Sample incident state with user 7 already assigned, used by concrete
witnesses. -/
def assignedState : IncidentState :=
  { sampleState with incident := { sampleState.incident with assignees := [7] } }

/-- Sample `action_item` audit record used by concrete witnesses. -/
def actionItemRec : IncidentUpdate :=
  { id := 5, incidentId := 42, userId := 1, type := UpdateType.action_item
    content := { text := some ['f', 'i', 'x'], completed := some false }
    createdAt := 70 }

/-- Sample `note` audit record used by concrete witnesses. -/
def noteRec : IncidentUpdate :=
  { id := 6, incidentId := 42, userId := 1, type := UpdateType.note
    content := { text := some ['n'] }
    createdAt := 71 }

/-- JS `String.prototype.trim` over the list-of-chars model of a JS string:
strip whitespace from both ends. -/
def trimChars (s : List Char) : List Char :=
  ((s.dropWhile Char.isWhitespace).reverse.dropWhile Char.isWhitespace).reverse

/-- The note fields of the `incident:noteAdded` broadcast payload (the
handler copies `update.content.text` into it). -/
structure NoteBroadcast where
  incidentId : Nat
  text : Option (List Char)
  authorId : Nat
deriving DecidableEq

/-- `incidentService.addNote`: verifies the incident exists (our state is
that incident) and appends a `note` audit record with the given text,
returning the new state and the created record. -/
def addNote (st : IncidentState) (text : List Char) (userId now : Nat) :
    IncidentState × IncidentUpdate :=
  let u : IncidentUpdate :=
    { id := st.updates.length
      incidentId := st.incidentId
      userId := userId
      type := UpdateType.note
      content := { text := some text }
      createdAt := now }
  ({ st with updates := st.updates ++ [u] }, u)

/-- The streaming `incident:addNote` handler: authorize; reject empty or
whitespace-only text (`!text || text.trim().length === 0`); reject
`text.length > 2000` — note the length check is on the UNTRIMMED text;
then persist the trimmed text and broadcast it. -/
def handleAddNote (user : User) (st : IncidentState) (text : List Char) (now : Nat) :
    Except Err (IncidentState × NoteBroadcast) :=
  if !(canWrite user) then Except.error Err.forbidden
  else if text = [] ∨ (trimChars text).length = 0 then Except.error Err.validation
  else if text.length > 2000 then Except.error Err.validation
  else
    let (st', u) := addNote st (trimChars text) user.id now
    Except.ok (st', { incidentId := st.incidentId, text := u.content.text, authorId := user.id })

/-- A raw note of 2001 characters whose trimmed length is exactly 2000:
one leading space followed by 2000 letters. -/
def longRawNote : List Char := ' ' :: List.replicate 2000 'a'

/-- `incidentService.assignUser`: rejects an already-assigned target
(`'User already assigned'`, HTTP 400 — the spec's Conflict kind), otherwise
pushes the target onto `assignees`, saves, and appends an `assignment`
audit record with `action: 'assigned'`. -/
def assignUser (now : Nat) (st : IncidentState) (targetUserId actorUserId : Nat) :
    Except Err IncidentState :=
  if st.incident.assignees.contains targetUserId then Except.error Err.conflict
  else
    Except.ok
      { st with
        incident := incidentPreSave now false
          { st.incident with assignees := st.incident.assignees ++ [targetUserId] }
        updates := st.updates ++
          [{ id := st.updates.length
             incidentId := st.incidentId
             userId := actorUserId
             type := UpdateType.assignment
             content := { action := some AssignAction.assigned
                          targetUserId := some targetUserId }
             createdAt := now }] }

/-- `incidentService.unassignUser`: `findIndex` then `splice(idx, 1)` —
errors when the target is absent (`'User not assigned to this incident'`,
HTTP 400 — Conflict kind), otherwise removes the first occurrence of the
target and appends an `assignment` audit record with
`action: 'unassigned'`. -/
def unassignUser (now : Nat) (st : IncidentState) (targetUserId actorUserId : Nat) :
    Except Err IncidentState :=
  if !(st.incident.assignees.contains targetUserId) then Except.error Err.conflict
  else
    Except.ok
      { st with
        incident := incidentPreSave now false
          { st.incident with assignees := st.incident.assignees.erase targetUserId }
        updates := st.updates ++
          [{ id := st.updates.length
             incidentId := st.incidentId
             userId := actorUserId
             type := UpdateType.assignment
             content := { action := some AssignAction.unassigned
                          targetUserId := some targetUserId }
             createdAt := now }] }

/-- Saving a mongoose document found by id: replace the first record whose
id matches (`_id`s are unique in the store, so this is the found one). -/
def saveById (updateId : Nat) (newRec : IncidentUpdate) :
    List IncidentUpdate → List IncidentUpdate
  | [] => []
  | u :: rest =>
    if u.id = updateId then newRec :: rest else u :: saveById updateId newRec rest

/-- `incidentService.toggleActionItem`: `findById`; 404 when absent, 400
when the found update is not an `action_item`; otherwise set
`content.completed` to the explicit boolean and save, returning the updated
record.  Operates on the whole `IncidentUpdate` collection since the lookup
is by update id alone. -/
def toggleActionItem (store : List IncidentUpdate) (updateId : Nat) (completed : Bool) :
    Except Err (List IncidentUpdate × IncidentUpdate) :=
  match store.find? (fun u => u.id == updateId) with
  | none => Except.error Err.notFound
  | some u =>
    if u.type ≠ UpdateType.action_item then Except.error Err.validation
    else
      let newRec : IncidentUpdate :=
        { u with content := { u.content with completed := some completed } }
      Except.ok (saveById updateId newRec store, newRec)

/-- Sequential application of `toggleActionItem` commands on one update id
(as issued by reconnect retries); stops at the first error. -/
def runToggles (updateId : Nat) (store : List IncidentUpdate) :
    List Bool → Except Err (List IncidentUpdate)
  | [] => Except.ok store
  | b :: rest =>
    match toggleActionItem store updateId b with
    | Except.error e => Except.error e
    | Except.ok (store', _) => runToggles updateId store' rest

/-- Projection forgetting `content.completed`, used to state that a toggle
mutates nothing else. -/
def eraseCompletedField (u : IncidentUpdate) : IncidentUpdate :=
  { u with content := { u.content with completed := none } }

/-- A document of the `Presence` collection (`Presence` mongoose model):
`userId`, `incidentId` (null means dashboard), `socketId`, `lastActiveAt`
(TTL-indexed, `expireAfterSeconds: 300`). -/
structure PresenceEntry where
  userId : Nat
  incidentId : Option Nat
  socketId : Nat
  lastActiveAt : Nat
deriving DecidableEq

/-- The mongo filter `{ userId, incidentId }` used by
`presenceService.joinIncident` / `leaveIncident`. -/
def sameKey (u : Nat) (i : Option Nat) (p : PresenceEntry) : Bool :=
  p.userId == u && p.incidentId == i

/-- `presenceService.joinIncident`: `Presence.deleteMany({userId,
incidentId})` — removing every entry for this (user, incident) pair,
whatever its socketId — then `Presence.create` one fresh entry with
`lastActiveAt: new Date()`. -/
def joinIncident (now : Nat) (userId incidentId socketId : Nat)
    (store : List PresenceEntry) : List PresenceEntry :=
  (store.filter (fun p => !(sameKey userId (some incidentId) p))) ++
    [{ userId := userId, incidentId := some incidentId, socketId := socketId,
       lastActiveAt := now }]

/-- `presenceService.updateActivity` (heartbeat): `Presence.updateOne({
socketId }, { lastActiveAt: new Date() })` — MongoDB `updateOne` updates
only the FIRST document matching the filter. -/
def updateActivity (now : Nat) (socketId : Nat) : List PresenceEntry → List PresenceEntry
  | [] => []
  | p :: rest =>
    if p.socketId = socketId then { p with lastActiveAt := now } :: rest
    else p :: updateActivity now socketId rest

/-- Projection forgetting `lastActiveAt`, used to state that a heartbeat
modifies no other field. -/
def eraseLastActiveAt (p : PresenceEntry) : PresenceEntry :=
  { p with lastActiveAt := 0 }

/-- Sample presence entry used by concrete witnesses. -/
def pEntry : PresenceEntry :=
  { userId := 2, incidentId := some 1, socketId := 8, lastActiveAt := 50 }

/-- Second presence entry of the SAME session (socket 8) on another
incident, used to refute the all-entries-refreshed reading of C9. -/
def pEntry2 : PresenceEntry :=
  { userId := 2, incidentId := some 2, socketId := 8, lastActiveAt := 50 }

/-- `FOCUS_THROTTLE_MS = 100`: minimum ms between focus updates per user. -/
def FOCUS_THROTTLE_MS : Int := 100

/-- The `validSections` list checked by `handleFocusUpdate`. -/
def validSections : List String :=
  ["status", "severity", "description", "notes", "assignees", "action_items", "commander"]

/-- An entry of the in-memory `userFocusState` map (the JS `section` key is
called `sect` here because `section` is reserved in Lean). -/
structure FocusState where
  incidentId : Nat
  sect : String
  fieldId : Option Nat
  color : String
  name : String
  lastUpdate : Int
deriving DecidableEq

/-- JS `Map.get` over an association-list model of a `Map`. -/
def mapGet {α : Type} (k : Nat) : List (Nat × α) → Option α
  | [] => none
  | (k', v') :: rest => if k' = k then some v' else mapGet k rest

/-- JS `Map.set` over an association-list model of a `Map`. -/
def mapSet {α : Type} (k : Nat) (v : α) : List (Nat × α) → List (Nat × α)
  | [] => [(k, v)]
  | (k', v') :: rest => if k' = k then (k, v) :: rest else (k', v') :: mapSet k v rest

/-- The module-level mutable maps of the socket module: `userFocusState`
(focus entries keyed by user id) and `focusThrottles` (last-stamp
timestamps keyed by user id). -/
structure FocusServer where
  userFocusState : List (Nat × FocusState)
  focusThrottles : List (Nat × Int)
deriving DecidableEq

/-- `shouldThrottleFocus(userId)`: JS
`if (lastUpdate && (now - lastUpdate) < FOCUS_THROTTLE_MS) return true`
— throttled iff a timestamp is stored, is truthy (non-zero), and lies less
than 100 ms in the past; in that case the map is NOT touched.  Otherwise
the map records `now` and the update proceeds. -/
def shouldThrottleFocus (now : Int) (userId : Nat) (throttles : List (Nat × Int)) :
    Bool × List (Nat × Int) :=
  match mapGet userId throttles with
  | some lastUpdate =>
    if lastUpdate ≠ 0 ∧ now - lastUpdate < FOCUS_THROTTLE_MS then (true, throttles)
    else (false, mapSet userId now throttles)
  | none => (false, mapSet userId now throttles)

/-- Data of a `focus:update` command (`{incidentId, section, fieldId?}`). -/
structure FocusCmd where
  incidentId : Nat
  sect : String
  fieldId : Option Nat
deriving DecidableEq

/-- A `focus:updated` event as delivered by `socket.to(room).emit`:
broadcast to the incident room, sender excluded. -/
structure FocusBroadcast where
  room : Nat
  excludeSender : Bool
  userId : Nat
  sect : String
  fieldId : Option Nat
  color : String
  name : String
deriving DecidableEq

/-- The `focus:updated` payload `handleFocusUpdate` relays for a command. -/
def mkFocusBroadcast (user : User) (userColor : String) (cmd : FocusCmd) : FocusBroadcast :=
  { room := cmd.incidentId, excludeSender := true, userId := user.id, sect := cmd.sect,
    fieldId := cmd.fieldId, color := userColor, name := user.name }

/-- The streaming `focus:update` handler: throttle check first — a
throttled command returns silently (no state change, no broadcast, no
error); then section validation (an invalid section throws, the throttle
map having already been stamped); then the in-memory focus entry for the
user is replaced and the update relayed to the room excluding the sender.
Returns (new module state, emitted broadcasts, error sent to sender). -/
def handleFocusUpdate (now : Int) (user : User) (userColor : String)
    (srv : FocusServer) (cmd : FocusCmd) :
    FocusServer × List FocusBroadcast × Option Err :=
  match shouldThrottleFocus now user.id srv.focusThrottles with
  | (true, _) => (srv, [], none)
  | (false, throttles') =>
    if !(validSections.contains cmd.sect) then
      ({ srv with focusThrottles := throttles' }, [], some Err.validation)
    else
      ({ userFocusState := mapSet user.id
           { incidentId := cmd.incidentId, sect := cmd.sect, fieldId := cmd.fieldId,
             color := userColor, name := user.name, lastUpdate := now } srv.userFocusState
         focusThrottles := throttles' },
       [mkFocusBroadcast user userColor cmd], none)

/-- Sequential processing of timestamped `focus:update` commands from one
session, collecting every emitted broadcast. -/
def runFocus (user : User) (userColor : String) :
    FocusServer → List (Int × FocusCmd) → FocusServer × List FocusBroadcast
  | srv, [] => (srv, [])
  | srv, (t, c) :: rest =>
    match handleFocusUpdate t user userColor srv c with
    | (srv', bs, _) =>
      match runFocus user userColor srv' rest with
      | (srvF, bsF) => (srvF, bs ++ bsF)

/-- The claim's throttling rule (spec side of the refinement): the first
command is accepted, and a later command is accepted iff it arrives at
least 100 ms after the last accepted one; `lastAcc` is the time of the last
accepted command so far. -/
def claimAccepted (lastAcc : Option Int) : List (Int × FocusCmd) → List (Int × FocusCmd)
  | [] => []
  | (t, c) :: rest =>
    match lastAcc with
    | some la =>
      if t - la < 100 then claimAccepted lastAcc rest
      else (t, c) :: claimAccepted (some t) rest
    | none => (t, c) :: claimAccepted (some t) rest

/-- Sample focus command used by concrete witnesses. -/
def focusCmdA : FocusCmd := { incidentId := 1, sect := "status", fieldId := none }

/-- The `role` enum of the `User.js` schema as a parser: mongoose stores a
caller-supplied role verbatim when it is one of the enum values and rejects
anything else with a ValidationError. -/
def roleOfString (s : String) : Option Role :=
  if s = "admin" then some Role.admin
  else if s = "responder" then some Role.responder
  else if s = "viewer" then some Role.viewer
  else none

/-- `User.create` with the schema's enum validation on `role` (password
hashing by the pre-save hook does not affect the stored role and is not
modelled). -/
def userCreate (newId : Nat) (email name roleStr : String) : Except Err User :=
  match roleOfString roleStr with
  | some r => Except.ok { id := newId, email := email, name := name, role := r }
  | none => Except.error Err.validation

/-- `authService.register({ email, password, name, role = 'responder' })`:
the destructuring default makes an absent role `'responder'`; an existing
email is rejected; otherwise the user is created with the requested role. -/
def register (newId : Nat) (email password name : String) (role : Option String)
    (existingEmails : List String) : Except Err User :=
  let roleVal := role.getD "responder"
  if existingEmails.contains email then Except.error Err.conflict
  else userCreate newId email name roleVal

/-- Body of a `POST /auth/register` request. -/
structure RegisterBody where
  email : Option String
  password : Option String
  name : Option String
  role : Option String
deriving DecidableEq

/-- JS truthiness of an optional string field (`!email` — absent or empty
string is falsy). -/
def truthy : Option String → Bool
  | none => false
  | some s => !(s == "")

/-- The `POST /auth/register` route handler.  No authentication middleware
is applied to this route (contrast `router.use(authenticateHTTP)` on the
incident routes): the handler is a function of the request body alone, so
no authenticated principal is involved in choosing the role. -/
def registerRoute (newId : Nat) (body : RegisterBody) (existingEmails : List String) :
    Except Err User :=
  if !(truthy body.email) || !(truthy body.password) || !(truthy body.name) then
    Except.error Err.validation
  else
    register newId (body.email.getD "") (body.password.getD "") (body.name.getD "")
      body.role existingEmails

/-- Concrete registration body claiming the admin role, used by witnesses. -/
def regBodyAdmin : RegisterBody :=
  { email := some "x@y.z", password := some "pw", name := some "X", role := some "admin" }

/-- Concrete registration body with no role field, used by witnesses. -/
def regBodyNoRole : RegisterBody :=
  { email := some "n@y.z", password := some "pw", name := some "N", role := none }

/-- Result of the concrete run used by the C2/C3 witnesses: create at t=10,
then accepted transitions `identified` at t=20 and `resolved` at t=30. -/
def c2State : IncidentState :=
  { incidentId := 42
    incident :=
      { title := ['D', 'B']
        description := []
        severity := Severity.high
        status := Status.resolved
        createdBy := 1
        commander := some 1
        assignees := []
        resolvedAt := some 30
        createdAt := 10 }
    updates :=
      [{ id := 0, incidentId := 42, userId := 1, type := UpdateType.status_change
         content := { previousStatus := none, newStatus := some Status.investigating }
         createdAt := 10 },
       { id := 1, incidentId := 42, userId := 1, type := UpdateType.status_change
         content := { previousStatus := some Status.investigating
                      newStatus := some Status.identified }
         createdAt := 20 },
       { id := 2, incidentId := 42, userId := 1, type := UpdateType.status_change
         content := { previousStatus := some Status.identified
                      newStatus := some Status.resolved }
         createdAt := 30 }] }

/-- C1. The streaming status-update validation accepts `(s, t)` iff `t ≠ s`
and `t` is listed for `s` in the claim's transition table; in particular
every same-state request and every transition out of `resolved` other than
to `investigating` is refused, and on a refused transition the handler
returns only a Conflict-kind error, producing no successor state. -/
theorem c1_transition_validation :
    (∀ s t : Status, isValidTransition s t = true ↔ (t ≠ s ∧ t ∈ claimTransitionTable s))
    ∧ (∀ s : Status, isValidTransition s s = false)
    ∧ (∀ t : Status, t ≠ Status.investigating → isValidTransition Status.resolved t = false)
    ∧ (∀ (now : Nat) (user : User) (st : IncidentState) (t : Status),
        canWrite user = true →
        isValidTransition st.incident.status t = false →
        handleStatusUpdate now user st t = Except.error Err.conflict) := by
  refine ⟨by decide, by decide, by decide, ?_⟩
  intro now user st t hw hv
  unfold handleStatusUpdate
  simp [hw, hv]

/-- Witness for C1: the concrete transition `resolved → monitoring` is
refused by the handler for a writer principal. -/
theorem c1_transition_validation_witness :
    handleStatusUpdate 11 adminUser resolvedState Status.monitoring =
      Except.error Err.conflict :=
  c1_transition_validation.2.2.2 11 adminUser resolvedState Status.monitoring
    (by decide) (by decide)

theorem isValidTransition_ne {a b : Status} (h : isValidTransition a b = true) : a ≠ b := by
  intro hab
  subst hab
  simp [isValidTransition] at h

theorem handleStatusUpdate_ok_spec {now : Nat} {user : User} {st : IncidentState}
    {s : Status} {st' : IncidentState}
    (h : handleStatusUpdate now user st s = Except.ok st') :
    st'.incidentId = st.incidentId
    ∧ st'.incident.status = s
    ∧ st'.incident.resolvedAt =
        (if s = Status.resolved ∧ st.incident.resolvedAt = none then some now
         else st.incident.resolvedAt)
    ∧ st'.incident.assignees = st.incident.assignees
    ∧ st'.updates = st.updates ++
        [{ id := st.updates.length
           incidentId := st.incidentId
           userId := user.id
           type := UpdateType.status_change
           content := { previousStatus := some st.incident.status, newStatus := some s }
           createdAt := now }] := by
  unfold handleStatusUpdate at h
  by_cases hw : canWrite user
  · by_cases hv : isValidTransition st.incident.status s
    · have hne := isValidTransition_ne hv
      unfold updateStatus at h
      simp [hw, hv, hne] at h
      subst h
      refine ⟨rfl, ?_, ?_, ?_, rfl⟩
      · unfold incidentPreSave
        split <;> rfl
      · by_cases hcond : s = Status.resolved ∧ st.incident.resolvedAt = none
        · simp [incidentPreSave, hcond]
        · simp [incidentPreSave, hcond]
      · unfold incidentPreSave
        split <;> rfl
    · simp [hw, hv] at h
  · simp [hw] at h

theorem chainedFrom_append (p : Option Status) (l : List IncidentUpdate)
    (u : IncidentUpdate) :
    chainedFrom p (l ++ [u]) =
      (chainedFrom p l && decide (u.content.previousStatus = endStatus p l)) := by
  induction l generalizing p with
  | nil => simp [chainedFrom, endStatus]
  | cons v l ih =>
    simp [chainedFrom, endStatus, ih, Bool.and_assoc]

theorem endStatus_append (p : Option Status) (l : List IncidentUpdate)
    (u : IncidentUpdate) :
    endStatus p (l ++ [u]) = u.content.newStatus := by
  induction l generalizing p with
  | nil => rfl
  | cons v l ih => simp [endStatus, ih]

theorem runTransitions_ok_updates (user : User) :
    ∀ (reqs : List (Nat × Status)) (st st' : IncidentState),
    runTransitions user st reqs = Except.ok st' →
    st'.updates.map (fun u => u.type) =
        st.updates.map (fun u => u.type) ++ List.replicate reqs.length UpdateType.status_change
    ∧ st'.updates.map (fun u => u.content.newStatus) =
        st.updates.map (fun u => u.content.newStatus) ++ reqs.map (fun r => some r.2)
    ∧ st'.updates.map (fun u => u.createdAt) =
        st.updates.map (fun u => u.createdAt) ++ reqs.map Prod.fst := by
  intro reqs
  induction reqs with
  | nil =>
    intro st st' h
    simp [runTransitions] at h
    subst h
    simp
  | cons r rest ih =>
    intro st st' h
    obtain ⟨t, s⟩ := r
    unfold runTransitions at h
    cases hstep : handleStatusUpdate t user st s with
    | error e => rw [hstep] at h; exact absurd h (by simp)
    | ok st1 =>
      rw [hstep] at h
      obtain ⟨-, -, -, -, hupd⟩ := handleStatusUpdate_ok_spec hstep
      obtain ⟨h1, h2, h3⟩ := ih st1 st' h
      rw [hupd] at h1 h2 h3
      simp only [List.map_append, List.map_cons, List.map_nil, List.append_assoc] at h1 h2 h3
      refine ⟨?_, ?_, ?_⟩
      · rw [h1]; simp [List.replicate_succ]
      · rw [h2]; simp
      · rw [h3]; simp

theorem runTransitions_ok_prefix (user : User) :
    ∀ (reqs : List (Nat × Status)) (st st' : IncidentState),
    runTransitions user st reqs = Except.ok st' →
    ∃ tail, st'.updates = st.updates ++ tail := by
  intro reqs
  induction reqs with
  | nil =>
    intro st st' h
    simp [runTransitions] at h
    subst h
    exact ⟨[], by simp⟩
  | cons r rest ih =>
    intro st st' h
    obtain ⟨t, s⟩ := r
    unfold runTransitions at h
    cases hstep : handleStatusUpdate t user st s with
    | error e => rw [hstep] at h; exact absurd h (by simp)
    | ok st1 =>
      rw [hstep] at h
      obtain ⟨-, -, -, -, hupd⟩ := handleStatusUpdate_ok_spec hstep
      obtain ⟨tail, htail⟩ := ih st1 st' h
      rw [hupd, List.append_assoc] at htail
      exact ⟨_, htail⟩

theorem runTransitions_ok_chain (user : User) :
    ∀ (reqs : List (Nat × Status)) (st st' : IncidentState),
    runTransitions user st reqs = Except.ok st' →
    chainedFrom none st.updates = true →
    endStatus none st.updates = some st.incident.status →
    chainedFrom none st'.updates = true
    ∧ endStatus none st'.updates = some st'.incident.status := by
  intro reqs
  induction reqs with
  | nil =>
    intro st st' h hc he
    simp [runTransitions] at h
    subst h
    exact ⟨hc, he⟩
  | cons r rest ih =>
    intro st st' h hc he
    obtain ⟨t, s⟩ := r
    unfold runTransitions at h
    cases hstep : handleStatusUpdate t user st s with
    | error e => rw [hstep] at h; exact absurd h (by simp)
    | ok st1 =>
      rw [hstep] at h
      obtain ⟨-, hstat, -, -, hupd⟩ := handleStatusUpdate_ok_spec hstep
      refine ih st1 st' h ?_ ?_
      · rw [hupd, chainedFrom_append, hc, he]
        simp
      · rw [hupd, endStatus_append, hstat]

theorem runTransitions_ok_last (user : User) :
    ∀ (reqs : List (Nat × Status)) (st st' : IncidentState) (r : Nat × Status),
    runTransitions user st reqs = Except.ok st' →
    reqs.getLast? = some r →
    st'.incident.status = r.2 := by
  intro reqs
  induction reqs with
  | nil => intro st st' r h hlast; simp at hlast
  | cons q rest ih =>
    intro st st' r h hlast
    obtain ⟨t, s⟩ := q
    unfold runTransitions at h
    cases hstep : handleStatusUpdate t user st s with
    | error e => rw [hstep] at h; exact absurd h (by simp)
    | ok st1 =>
      rw [hstep] at h
      obtain ⟨-, hstat, -, -, -⟩ := handleStatusUpdate_ok_spec hstep
      cases rest with
      | nil =>
        simp at hlast
        simp [runTransitions] at h
        subst h
        rw [hstat, ← hlast]
      | cons r2 rest2 =>
        rw [List.getLast?_cons_cons] at hlast
        exact ih st1 st' r h hlast

theorem runTransitions_resolvedAt_sticky (user : User) :
    ∀ (reqs : List (Nat × Status)) (st st' : IncidentState) (r : Nat),
    runTransitions user st reqs = Except.ok st' →
    st.incident.resolvedAt = some r →
    st'.incident.resolvedAt = some r := by
  intro reqs
  induction reqs with
  | nil =>
    intro st st' r h hr
    simp [runTransitions] at h
    subst h
    exact hr
  | cons q rest ih =>
    intro st st' r h hr
    obtain ⟨t, s⟩ := q
    unfold runTransitions at h
    cases hstep : handleStatusUpdate t user st s with
    | error e => rw [hstep] at h; exact absurd h (by simp)
    | ok st1 =>
      rw [hstep] at h
      obtain ⟨-, -, hres, -, -⟩ := handleStatusUpdate_ok_spec hstep
      refine ih st1 st' r h ?_
      rw [hres, hr]
      simp

theorem runTransitions_resolvedAt_of_none (user : User) :
    ∀ (reqs : List (Nat × Status)) (st st' : IncidentState),
    runTransitions user st reqs = Except.ok st' →
    st.incident.resolvedAt = none →
    st'.incident.resolvedAt = firstResolvedTime reqs := by
  intro reqs
  induction reqs with
  | nil =>
    intro st st' h hr
    simp [runTransitions] at h
    subst h
    simpa [firstResolvedTime] using hr
  | cons q rest ih =>
    intro st st' h hr
    obtain ⟨t, s⟩ := q
    unfold runTransitions at h
    cases hstep : handleStatusUpdate t user st s with
    | error e => rw [hstep] at h; exact absurd h (by simp)
    | ok st1 =>
      rw [hstep] at h
      obtain ⟨-, -, hres, -, -⟩ := handleStatusUpdate_ok_spec hstep
      by_cases hs : s = Status.resolved
      · have h1 : st1.incident.resolvedAt = some t := by
          rw [hres]
          simp [hs, hr]
        rw [runTransitions_resolvedAt_sticky user rest st1 st' t h h1]
        simp [firstResolvedTime, hs]
      · have h1 : st1.incident.resolvedAt = none := by
          rw [hres, hr]
          simp [hs]
        rw [ih st1 st' h h1]
        simp [firstResolvedTime, hs]

theorem firstResolvedTime_ne_none (reqs : List (Nat × Status)) :
    firstResolvedTime reqs ≠ none ↔ ∃ r ∈ reqs, r.2 = Status.resolved := by
  induction reqs with
  | nil => simp [firstResolvedTime]
  | cons q rest ih =>
    obtain ⟨t, s⟩ := q
    by_cases hs : s = Status.resolved
    · simp [firstResolvedTime, hs]
    · simp [firstResolvedTime, hs, ih]

/-- C2. From `createIncident` and any accepted sequence of streaming status
transitions: every audit record is a `status_change`; the `newStatus`
column is exactly `investigating` followed by the requested statuses in
order; the log chains (first `previousStatus` null, each later
`previousStatus` equal to the preceding `newStatus`); the head record is
exactly the seed record; the `createdAt` column is the creation time
followed by the request times, so insertion order is `createdAt` order for
a monotone clock; and the final status equals the last request. -/
theorem c2_audit_chain (user : User) (t0 : Nat) (data : CreateIncidentData)
    (uid iid : Nat) (reqs : List (Nat × Status)) (st' : IncidentState)
    (h : runTransitions user (createIncident t0 data uid iid) reqs = Except.ok st') :
    st'.updates.map (fun u => u.type) = List.replicate (reqs.length + 1) UpdateType.status_change
    ∧ st'.updates.map (fun u => u.content.newStatus) =
        some Status.investigating :: reqs.map (fun r => some r.2)
    ∧ chainedFrom none st'.updates = true
    ∧ st'.updates.head? = some
        { id := 0, incidentId := iid, userId := uid, type := UpdateType.status_change
          content := { previousStatus := none, newStatus := some Status.investigating }
          createdAt := t0 }
    ∧ st'.updates.map (fun u => u.createdAt) = t0 :: reqs.map Prod.fst
    ∧ (List.Chain' (· < ·) (t0 :: reqs.map Prod.fst) →
        List.Chain' (· < ·) (st'.updates.map (fun u => u.createdAt)))
    ∧ ∀ r, reqs.getLast? = some r → st'.incident.status = r.2 := by
  obtain ⟨h1, h2, h3⟩ := runTransitions_ok_updates user reqs _ st' h
  obtain ⟨hc, -⟩ := runTransitions_ok_chain user reqs _ st' h
    (by simp [createIncident, chainedFrom])
    (by simp [createIncident, endStatus, incidentPreSave])
  obtain ⟨tail, htail⟩ := runTransitions_ok_prefix user reqs _ st' h
  refine ⟨?_, ?_, hc, ?_, ?_, ?_, ?_⟩
  · rw [h1]
    simp [createIncident, List.replicate_succ]
  · rw [h2]
    simp [createIncident]
  · rw [htail]
    simp [createIncident]
  · rw [h3]
    simp [createIncident]
  · intro hmono
    rw [h3]
    simpa [createIncident] using hmono
  · exact fun r hr => runTransitions_ok_last user reqs _ st' r h hr

/-- Witness for C2: the concrete run create → `identified` → `resolved`
yields exactly the expected three-record chained log and final status. -/
theorem c2_audit_chain_witness :
    runTransitions adminUser (createIncident 10 sampleData 1 42)
        [(20, Status.identified), (30, Status.resolved)] = Except.ok c2State
    ∧ c2State.updates.map (fun u => u.type) = List.replicate 3 UpdateType.status_change
    ∧ chainedFrom none c2State.updates = true
    ∧ c2State.updates.map (fun u => u.createdAt) = [10, 20, 30]
    ∧ c2State.incident.status = Status.resolved := by
  have hrun : runTransitions adminUser (createIncident 10 sampleData 1 42)
      [(20, Status.identified), (30, Status.resolved)] = Except.ok c2State := by rfl
  have h := c2_audit_chain adminUser 10 sampleData 1 42
    [(20, Status.identified), (30, Status.resolved)] c2State hrun
  refine ⟨hrun, h.1, h.2.2.1, h.2.2.2.2.1, h.2.2.2.2.2.2 (30, Status.resolved) (by rfl)⟩

/-- C3. From `createIncident` and any accepted transition sequence,
`resolvedAt` equals the timestamp of the first accepted transition into
`resolved` (so it is non-null iff the incident has ever been resolved, and
re-open / re-resolve never change it); moreover a single successful
transition to `resolved` sets `resolvedAt` exactly when it was null. -/
theorem c3_resolvedAt (user : User) (t0 : Nat) (data : CreateIncidentData)
    (uid iid : Nat) (reqs : List (Nat × Status)) (st' : IncidentState)
    (h : runTransitions user (createIncident t0 data uid iid) reqs = Except.ok st') :
    st'.incident.resolvedAt = firstResolvedTime reqs
    ∧ (st'.incident.resolvedAt ≠ none ↔ ∃ r ∈ reqs, r.2 = Status.resolved)
    ∧ (∀ (now : Nat) (u2 : User) (st2 st3 : IncidentState),
        handleStatusUpdate now u2 st2 Status.resolved = Except.ok st3 →
        (st2.incident.resolvedAt = none → st3.incident.resolvedAt = some now)
        ∧ ∀ r, st2.incident.resolvedAt = some r → st3.incident.resolvedAt = some r) := by
  have h0 : (createIncident t0 data uid iid).incident.resolvedAt = none := by
    simp [createIncident, incidentPreSave]
  have h1 := runTransitions_resolvedAt_of_none user reqs _ st' h h0
  refine ⟨h1, by rw [h1]; exact firstResolvedTime_ne_none reqs, ?_⟩
  intro now u2 st2 st3 hstep
  obtain ⟨-, -, hres, -, -⟩ := handleStatusUpdate_ok_spec hstep
  constructor
  · intro hn
    rw [hres, hn]
    simp
  · intro r hr
    rw [hres, hr]
    simp

/-- Witness for C3: in the concrete run of the C2 witness the incident is
resolved at t=30 and `resolvedAt` records exactly that first entry. -/
theorem c3_resolvedAt_witness :
    c2State.incident.resolvedAt = firstResolvedTime [(20, Status.identified), (30, Status.resolved)]
    ∧ c2State.incident.resolvedAt = some 30 := by
  have h := c3_resolvedAt adminUser 10 sampleData 1 42
    [(20, Status.identified), (30, Status.resolved)] c2State (by rfl)
  exact ⟨h.1, by rfl⟩

theorem dropWhile_length_le (p : Char → Bool) (l : List Char) :
    (l.dropWhile p).length ≤ l.length := by
  induction l with
  | nil => simp
  | cons a l ih =>
    by_cases h : p a
    · simp only [List.dropWhile, h]
      exact Nat.le_succ_of_le ih
    · simp [List.dropWhile, h]

theorem trimChars_length_le (s : List Char) : (trimChars s).length ≤ s.length := by
  unfold trimChars
  simp only [List.length_reverse]
  exact le_trans (dropWhile_length_le _ _)
    (by simpa using dropWhile_length_le Char.isWhitespace s)

theorem dropWhile_replicate_of_neg {p : Char → Bool} {a : Char} (h : p a = false)
    (n : Nat) : (List.replicate n a).dropWhile p = List.replicate n a := by
  cases n with
  | zero => rfl
  | succ n => simp [List.replicate_succ, List.dropWhile_cons, h]

theorem trim_longRawNote : trimChars longRawNote = List.replicate 2000 'a' := by
  unfold longRawNote trimChars
  rw [List.dropWhile_cons]
  simp only [show Char.isWhitespace ' ' = true from rfl, if_true]
  rw [dropWhile_replicate_of_neg (by decide), List.reverse_replicate,
    dropWhile_replicate_of_neg (by decide), List.reverse_replicate]

set_option maxRecDepth 20000 in
/-- Counterexample for C4: a raw note of 2001 characters whose trimmed
length is exactly 2000 is REJECTED by the handler (the claim says text of
trimmed length 2000 succeeds), because the 2000-character cap is checked on
the untrimmed text. -/
theorem c4_counterexample :
    (trimChars longRawNote).length = 2000
    ∧ longRawNote.length = 2001
    ∧ handleAddNote adminUser sampleState longRawNote 50 = Except.error Err.validation := by
  have hlen : longRawNote.length = 2001 := by
    unfold longRawNote
    rw [List.length_cons, List.length_replicate]
  refine ⟨by rw [trim_longRawNote, List.length_replicate], hlen, ?_⟩
  unfold handleAddNote
  rw [if_neg (by decide),
    if_neg (by
      push_neg
      refine ⟨by unfold longRawNote; exact List.cons_ne_nil _ _, ?_⟩
      rw [trim_longRawNote, List.length_replicate]
      norm_num),
    if_pos (by rw [hlen]; norm_num)]

/-- C4 (amended). A note is accepted iff its trimmed length is at least 1
and its RAW (untrimmed) length is at most 2000: whitespace-only text fails,
text of trimmed length 2001 fails, and on success the persisted and
broadcast note text is the trimmed text.  (The claim's "trimmed length
exactly 2000 succeeds" only holds when the raw text also fits in 2000
characters.) -/
theorem c4_note_validation (user : User) (st : IncidentState) (text : List Char)
    (now : Nat) (hw : canWrite user = true) :
    ((∃ res, handleAddNote user st text now = Except.ok res) ↔
      (1 ≤ (trimChars text).length ∧ text.length ≤ 2000))
    ∧ (trimChars text = [] → handleAddNote user st text now = Except.error Err.validation)
    ∧ ((trimChars text).length = 2001 →
        handleAddNote user st text now = Except.error Err.validation)
    ∧ (∀ st' b, handleAddNote user st text now = Except.ok (st', b) →
        b.text = some (trimChars text)
        ∧ st'.updates = st.updates ++
            [{ id := st.updates.length
               incidentId := st.incidentId
               userId := user.id
               type := UpdateType.note
               content := { text := some (trimChars text) }
               createdAt := now }]) := by
  have hwneg : (!(canWrite user)) = false := by simp [hw]
  by_cases h1 : text = [] ∨ (trimChars text).length = 0
  · have herr : handleAddNote user st text now = Except.error Err.validation := by
      unfold handleAddNote
      rw [hwneg, if_neg (by simp), if_pos h1]
    have hlen0 : (trimChars text).length = 0 := by
      rcases h1 with h1 | h1
      · subst h1; rfl
      · exact h1
    refine ⟨?_, fun _ => herr, ?_, ?_⟩
    · constructor
      · rintro ⟨res, hres⟩
        rw [herr] at hres
        cases hres
      · rintro ⟨hge, -⟩
        omega
    · intro h2001
      omega
    · intro st' b hres
      rw [herr] at hres
      cases hres
  · push_neg at h1
    obtain ⟨hne, hlen⟩ := h1
    by_cases h2 : text.length > 2000
    · have herr : handleAddNote user st text now = Except.error Err.validation := by
        unfold handleAddNote
        rw [hwneg, if_neg (by simp), if_neg (by tauto), if_pos h2]
      refine ⟨?_, fun _ => herr, fun _ => herr, ?_⟩
      · constructor
        · rintro ⟨res, hres⟩
          rw [herr] at hres
          cases hres
        · rintro ⟨-, hle⟩
          omega
      · intro st' b hres
        rw [herr] at hres
        cases hres
    · have hok : handleAddNote user st text now =
          Except.ok
            ({ st with updates := st.updates ++
                [{ id := st.updates.length
                   incidentId := st.incidentId
                   userId := user.id
                   type := UpdateType.note
                   content := { text := some (trimChars text) }
                   createdAt := now }] },
             { incidentId := st.incidentId
               text := some (trimChars text)
               authorId := user.id }) := by
        unfold handleAddNote addNote
        rw [hwneg, if_neg (by simp), if_neg (by tauto), if_neg h2]
      refine ⟨?_, ?_, ?_, ?_⟩
      · constructor
        · intro _
          exact ⟨by omega, by omega⟩
        · intro _
          exact ⟨_, hok⟩
      · intro htr
        exact absurd (by rw [htr]; rfl) hlen
      · intro h2001
        have := trimChars_length_le text
        omega
      · intro st' b hres
        rw [hok] at hres
        simp only [Except.ok.injEq, Prod.mk.injEq] at hres
        obtain ⟨hst, hb⟩ := hres
        subst hst
        subst hb
        exact ⟨rfl, rfl⟩

/-- Witness for C4 (amended): the concrete note `" hi"` is accepted and the
acceptance condition evaluates as stated. -/
theorem c4_note_validation_witness :
    canWrite adminUser = true
    ∧ ((∃ res, handleAddNote adminUser sampleState [' ', 'h', 'i'] 50 = Except.ok res) ↔
        (1 ≤ (trimChars [' ', 'h', 'i']).length ∧ ([' ', 'h', 'i'] : List Char).length ≤ 2000)) :=
  ⟨by decide, (c4_note_validation adminUser sampleState [' ', 'h', 'i'] 50 (by decide)).1⟩

theorem incidentPreSave_not_modified (now : Nat) (inc : Incident) :
    incidentPreSave now false inc = inc := by
  simp [incidentPreSave]

/-- C5. The assignees list behaves as a set: assigning a present target
fails with a Conflict error (the error result carries no new state, so the
assignees list is unchanged and no audit record is written), unassigning an
absent target fails likewise; an accepted assign changes membership of
exactly the target (adding it) and appends exactly one assignment audit
record, an accepted unassign changes membership of exactly the target
(removing it, given the no-duplicates invariant) and appends exactly one
assignment audit record; both accepted operations preserve the
no-duplicates invariant. -/
theorem c5_assignees_set (now : Nat) (st : IncidentState) (target actor : Nat) :
    (target ∈ st.incident.assignees →
      assignUser now st target actor = Except.error Err.conflict)
    ∧ (target ∉ st.incident.assignees →
      ∃ st', assignUser now st target actor = Except.ok st'
        ∧ st'.incident.assignees = st.incident.assignees ++ [target]
        ∧ (∀ x, x ∈ st'.incident.assignees ↔ (x ∈ st.incident.assignees ∨ x = target))
        ∧ st'.updates = st.updates ++
            [{ id := st.updates.length
               incidentId := st.incidentId
               userId := actor
               type := UpdateType.assignment
               content := { action := some AssignAction.assigned
                            targetUserId := some target }
               createdAt := now }]
        ∧ (st.incident.assignees.Nodup → st'.incident.assignees.Nodup))
    ∧ (target ∉ st.incident.assignees →
      unassignUser now st target actor = Except.error Err.conflict)
    ∧ (target ∈ st.incident.assignees →
      ∃ st', unassignUser now st target actor = Except.ok st'
        ∧ st'.incident.assignees = st.incident.assignees.erase target
        ∧ (st.incident.assignees.Nodup →
            ∀ x, x ∈ st'.incident.assignees ↔ (x ∈ st.incident.assignees ∧ x ≠ target))
        ∧ st'.updates = st.updates ++
            [{ id := st.updates.length
               incidentId := st.incidentId
               userId := actor
               type := UpdateType.assignment
               content := { action := some AssignAction.unassigned
                            targetUserId := some target }
               createdAt := now }]
        ∧ (st.incident.assignees.Nodup → st'.incident.assignees.Nodup)) := by
  refine ⟨?_, ?_, ?_, ?_⟩
  · intro hmem
    unfold assignUser
    rw [if_pos (by simpa using hmem)]
  · intro hmem
    unfold assignUser
    rw [if_neg (by simpa using hmem)]
    refine ⟨_, rfl, ?_, ?_, ?_, ?_⟩
    · simp [incidentPreSave]
    · intro x
      simp [incidentPreSave]
    · rfl
    · intro hnd
      simp [incidentPreSave, List.nodup_append, hmem, hnd]
  · intro hmem
    unfold unassignUser
    rw [if_pos (by simpa using hmem)]
  · intro hmem
    unfold unassignUser
    rw [if_neg (by simpa using hmem)]
    refine ⟨_, rfl, ?_, ?_, ?_, ?_⟩
    · simp [incidentPreSave]
    · intro hnd x
      rw [incidentPreSave_not_modified]
      constructor
      · intro hx
        exact ⟨(hnd.mem_erase_iff.mp hx).2, (hnd.mem_erase_iff.mp hx).1⟩
      · intro ⟨hx, hne⟩
        exact hnd.mem_erase_iff.mpr ⟨hne, hx⟩
    · rfl
    · intro hnd
      rw [incidentPreSave_not_modified]
      exact hnd.erase target

/-- Witness for C5: with user 7 already assigned, re-assigning 7 is a
Conflict; with nobody assigned, unassigning 7 is a Conflict; with user 7
assigned, unassigning 7 succeeds, removes exactly 7 and appends one
`unassigned` audit record. -/
theorem c5_assignees_set_witness :
    (assignUser 60 assignedState 7 1 = Except.error Err.conflict)
    ∧ (unassignUser 60 sampleState 7 1 = Except.error Err.conflict)
    ∧ (∃ st', unassignUser 60 assignedState 7 1 = Except.ok st'
        ∧ st'.incident.assignees = assignedState.incident.assignees.erase 7
        ∧ (assignedState.incident.assignees.Nodup →
            ∀ x, x ∈ st'.incident.assignees ↔ (x ∈ assignedState.incident.assignees ∧ x ≠ 7))
        ∧ st'.updates = assignedState.updates ++
            [{ id := assignedState.updates.length
               incidentId := assignedState.incidentId
               userId := 1
               type := UpdateType.assignment
               content := { action := some AssignAction.unassigned
                            targetUserId := some 7 }
               createdAt := 60 }]
        ∧ (assignedState.incident.assignees.Nodup → st'.incident.assignees.Nodup)) :=
  ⟨(c5_assignees_set 60 assignedState 7 1).1 (by decide),
   (c5_assignees_set 60 sampleState 7 1).2.2.1 (by decide),
   (c5_assignees_set 60 assignedState 7 1).2.2.2 (by decide)⟩

theorem find?_id_eq {store : List IncidentUpdate} {i : Nat} {u : IncidentUpdate}
    (h : store.find? (fun v => v.id == i) = some u) : u.id = i := by
  have h2 := List.find?_some h
  simpa using h2

theorem find?_saveById_self {i : Nat} {newRec u : IncidentUpdate} (hid : newRec.id = i) :
    ∀ {store : List IncidentUpdate},
    store.find? (fun v => v.id == i) = some u →
    (saveById i newRec store).find? (fun v => v.id == i) = some newRec := by
  intro store
  induction store with
  | nil => intro h; simp at h
  | cons w rest ih =>
    intro h
    by_cases hw : w.id = i
    · simp only [saveById]
      rw [if_pos hw, List.find?_cons_of_pos _ (by simp [hid])]
    · rw [List.find?_cons_of_neg _ (by simp [hw])] at h
      simp only [saveById]
      rw [if_neg hw, List.find?_cons_of_neg _ (by simp [hw])]
      exact ih h

theorem saveById_self {i : Nat} {u : IncidentUpdate} :
    ∀ {store : List IncidentUpdate},
    store.find? (fun v => v.id == i) = some u →
    saveById i u store = store := by
  intro store
  induction store with
  | nil => intro h; simp at h
  | cons w rest ih =>
    intro h
    by_cases hw : w.id = i
    · rw [List.find?_cons_of_pos _ (by simp [hw])] at h
      simp only [saveById]
      rw [if_pos hw]
      cases h
      rfl
    · rw [List.find?_cons_of_neg _ (by simp [hw])] at h
      simp only [saveById]
      rw [if_neg hw, ih h]

theorem map_saveById {β : Type} {f : IncidentUpdate → β} {i : Nat}
    {newRec u : IncidentUpdate} (hf : f newRec = f u) :
    ∀ {store : List IncidentUpdate},
    store.find? (fun v => v.id == i) = some u →
    (saveById i newRec store).map f = store.map f := by
  intro store
  induction store with
  | nil => intro h; simp at h
  | cons w rest ih =>
    intro h
    by_cases hw : w.id = i
    · rw [List.find?_cons_of_pos _ (by simp [hw])] at h
      simp only [saveById]
      rw [if_pos hw]
      cases h
      simp [hf]
    · rw [List.find?_cons_of_neg _ (by simp [hw])] at h
      simp only [saveById]
      rw [if_neg hw]
      simp [ih h]

theorem toggleActionItem_ok {store : List IncidentUpdate} {i : Nat} {u : IncidentUpdate}
    (hfind : store.find? (fun v => v.id == i) = some u)
    (htype : u.type = UpdateType.action_item) (b : Bool) :
    toggleActionItem store i b =
      Except.ok (saveById i { u with content := { u.content with completed := some b } } store,
                 { u with content := { u.content with completed := some b } }) := by
  unfold toggleActionItem
  simp only [hfind]
  rw [if_neg (by simp [htype])]

theorem toggleActionItem_noop {store : List IncidentUpdate} {i : Nat} {u : IncidentUpdate}
    {b : Bool} (hfind : store.find? (fun v => v.id == i) = some u)
    (htype : u.type = UpdateType.action_item)
    (hb : u.content.completed = some b) :
    toggleActionItem store i b = Except.ok (store, u) := by
  have heq : ({ u with content := { u.content with completed := some b } } : IncidentUpdate) = u := by
    rw [← hb]
  rw [toggleActionItem_ok hfind htype, heq, saveById_self hfind]

theorem runToggles_cons_ok {i : Nat} {store store1 : List IncidentUpdate}
    {rec : IncidentUpdate} {b : Bool} {bs : List Bool}
    (h : toggleActionItem store i b = Except.ok (store1, rec)) :
    runToggles i store (b :: bs) = runToggles i store1 bs := by
  simp only [runToggles]
  rw [h]

theorem runToggles_spec (i : Nat) :
    ∀ (bs : List Bool) (store : List IncidentUpdate) (u : IncidentUpdate),
    store.find? (fun v => v.id == i) = some u →
    u.type = UpdateType.action_item →
    ∃ store' rec, runToggles i store bs = Except.ok store'
      ∧ store'.find? (fun v => v.id == i) = some rec
      ∧ rec.type = UpdateType.action_item
      ∧ eraseCompletedField rec = eraseCompletedField u
      ∧ store'.map eraseCompletedField = store.map eraseCompletedField
      ∧ (∀ b, bs.getLast? = some b → rec.content.completed = some b)
      ∧ (bs = [] → store' = store ∧ rec = u) := by
  intro bs
  induction bs with
  | nil =>
    intro store u hfind htype
    exact ⟨store, u, rfl, hfind, htype, rfl, rfl, by simp, fun _ => ⟨rfl, rfl⟩⟩
  | cons b rest ih =>
    intro store u hfind htype
    have hstep := toggleActionItem_ok hfind htype b
    have hid0 : u.id = i := find?_id_eq hfind
    have hid1 : ({ u with content := { u.content with completed := some b } } : IncidentUpdate).id = i := hid0
    have hfind1 : (saveById i { u with content := { u.content with completed := some b } }
          store).find? (fun v => v.id == i) =
        some { u with content := { u.content with completed := some b } } :=
      find?_saveById_self hid1 hfind
    obtain ⟨store', rec, hrun, hfind', htype', herase, hmap, hlast, hnil⟩ :=
      ih (saveById i { u with content := { u.content with completed := some b } } store)
        { u with content := { u.content with completed := some b } } hfind1 htype
    have hf : eraseCompletedField { u with content := { u.content with completed := some b } } =
        eraseCompletedField u := rfl
    refine ⟨store', rec, ?_, hfind', htype', herase.trans hf, ?_, ?_, ?_⟩
    · rw [runToggles_cons_ok hstep]
      exact hrun
    · exact hmap.trans (map_saveById hf hfind)
    · intro b2 hb2
      cases rest with
      | nil =>
        obtain ⟨-, hrec⟩ := hnil rfl
        subst hrec
        simp only [List.getLast?_singleton] at hb2
        cases hb2
        rfl
      | cons c cs =>
        rw [List.getLast?_cons_cons] at hb2
        exact hlast b2 hb2
    · intro h
      exact absurd h (by simp)

/-- C6. `toggleActionItem` takes an explicit boolean and only mutates
`action_item` updates: a toggle on an update of any other kind fails with an
error (producing no new store); any accepted toggle sequence on one action
item ends with `completed` equal to the last boolean, and across the whole
store no field other than `content.completed` of that record is mutated;
calling with the current value is accepted and returns the store unchanged;
and toggling to `b` twice yields the same result as toggling once. -/
theorem c6_toggle_action_item (store : List IncidentUpdate) (updateId : Nat)
    (u : IncidentUpdate) (hfind : store.find? (fun v => v.id == updateId) = some u) :
    (u.type ≠ UpdateType.action_item →
      ∀ b, toggleActionItem store updateId b = Except.error Err.validation)
    ∧ (u.type = UpdateType.action_item →
        ∀ (bs : List Bool) (b : Bool), bs.getLast? = some b →
        ∃ store' rec, runToggles updateId store bs = Except.ok store'
          ∧ store'.find? (fun v => v.id == updateId) = some rec
          ∧ rec.content.completed = some b
          ∧ eraseCompletedField rec = eraseCompletedField u
          ∧ store'.map eraseCompletedField = store.map eraseCompletedField)
    ∧ (u.type = UpdateType.action_item →
        ∀ b, u.content.completed = some b →
        toggleActionItem store updateId b = Except.ok (store, u))
    ∧ (u.type = UpdateType.action_item →
        ∀ b, runToggles updateId store [b, b] = runToggles updateId store [b]) := by
  refine ⟨?_, ?_, ?_, ?_⟩
  · intro htype b
    unfold toggleActionItem
    simp only [hfind]
    rw [if_pos htype]
  · intro htype bs b hlastb
    obtain ⟨store', rec, hrun, hfind', -, herase, hmap, hlast, -⟩ :=
      runToggles_spec updateId bs store u hfind htype
    exact ⟨store', rec, hrun, hfind', hlast b hlastb, herase, hmap⟩
  · intro htype b hb
    exact toggleActionItem_noop hfind htype hb
  · intro htype b
    have hstep := toggleActionItem_ok hfind htype b
    have hid0 : u.id = updateId := find?_id_eq hfind
    have hid1 : ({ u with content := { u.content with completed := some b } } : IncidentUpdate).id = updateId := hid0
    have hfind1 : (saveById updateId { u with content := { u.content with completed := some b } }
          store).find? (fun v => v.id == updateId) =
        some { u with content := { u.content with completed := some b } } :=
      find?_saveById_self hid1 hfind
    have hnoop := toggleActionItem_noop hfind1 htype rfl
    rw [runToggles_cons_ok hstep, runToggles_cons_ok hstep, runToggles_cons_ok hnoop]

/-- Witness for C6: on a concrete store holding one action item (id 5,
initially not completed) and one note (id 6), toggling the note fails, the
sequence `[true, false]` ends not-completed with nothing else mutated, the
no-op toggle returns the store unchanged, and a double toggle equals a
single one. -/
theorem c6_toggle_action_item_witness :
    (∀ b, toggleActionItem [actionItemRec, noteRec] 6 b = Except.error Err.validation)
    ∧ (∃ store' rec, runToggles 5 [actionItemRec, noteRec] [true, false] = Except.ok store'
        ∧ store'.find? (fun v => v.id == 5) = some rec
        ∧ rec.content.completed = some false
        ∧ eraseCompletedField rec = eraseCompletedField actionItemRec
        ∧ store'.map eraseCompletedField = [actionItemRec, noteRec].map eraseCompletedField)
    ∧ toggleActionItem [actionItemRec, noteRec] 5 false = Except.ok ([actionItemRec, noteRec], actionItemRec)
    ∧ runToggles 5 [actionItemRec, noteRec] [true, true] = runToggles 5 [actionItemRec, noteRec] [true] :=
  ⟨(c6_toggle_action_item [actionItemRec, noteRec] 6 noteRec (by rfl)).1 (by decide),
   (c6_toggle_action_item [actionItemRec, noteRec] 5 actionItemRec (by rfl)).2.1 (by rfl)
     [true, false] false (by rfl),
   (c6_toggle_action_item [actionItemRec, noteRec] 5 actionItemRec (by rfl)).2.2.1 (by rfl)
     false (by rfl),
   (c6_toggle_action_item [actionItemRec, noteRec] 5 actionItemRec (by rfl)).2.2.2 (by rfl) true⟩

theorem filter_filter_of_imp {α : Type} {A B : α → Bool}
    (h : ∀ p, A p = true → B p = true) :
    ∀ l : List α, (l.filter B).filter A = l.filter A := by
  intro l
  induction l with
  | nil => rfl
  | cons x l ih =>
    by_cases hA : A x
    · have hB := h x hA
      simp [List.filter_cons, hA, hB, ih]
    · by_cases hB : B x
      · simp [List.filter_cons, hA, hB, ih]
      · simp [List.filter_cons, hA, hB, ih]

theorem filter_not_filter_self {α : Type} (A : α → Bool) :
    ∀ l : List α, (l.filter (fun p => !(A p))).filter A = [] := by
  intro l
  induction l with
  | nil => rfl
  | cons x l ih =>
    by_cases hA : A x
    · simp [List.filter_cons, hA, ih]
    · simp [List.filter_cons, hA, ih]

/-- C7. `joinIncident` first deletes every presence entry for the same
(principal, incident) pair — whatever its sessionId — then creates exactly
one new entry: after a join the entries for that pair are exactly the one
fresh entry; entries under any other (principal, incident) key are
untouched; the at-most-one-entry-per-key invariant is preserved; and
joining twice replaces the prior entry, the later session winning. -/
theorem c7_presence_join (now userId incidentId socketId : Nat)
    (store : List PresenceEntry) :
    ((joinIncident now userId incidentId socketId store).filter
        (sameKey userId (some incidentId)) =
      [{ userId := userId, incidentId := some incidentId, socketId := socketId,
         lastActiveAt := now }])
    ∧ (∀ u' i', ¬(u' = userId ∧ i' = some incidentId) →
        (joinIncident now userId incidentId socketId store).filter (sameKey u' i') =
          store.filter (sameKey u' i'))
    ∧ ((∀ u' i', (store.filter (sameKey u' i')).length ≤ 1) →
        ∀ u' i',
          ((joinIncident now userId incidentId socketId store).filter (sameKey u' i')).length ≤ 1)
    ∧ (∀ now2 socketId2,
        (joinIncident now2 userId incidentId socketId2
            (joinIncident now userId incidentId socketId store)).filter
          (sameKey userId (some incidentId)) =
        [{ userId := userId, incidentId := some incidentId, socketId := socketId2,
           lastActiveAt := now2 }]) := by
  have hkey : ∀ (n sid : Nat) (s : List PresenceEntry),
      (joinIncident n userId incidentId sid s).filter (sameKey userId (some incidentId)) =
        [{ userId := userId, incidentId := some incidentId, socketId := sid,
           lastActiveAt := n }] := by
    intro n sid s
    unfold joinIncident
    rw [List.filter_append, filter_not_filter_self (sameKey userId (some incidentId)) s]
    simp [sameKey]
  have hother : ∀ u' i', ¬(u' = userId ∧ i' = some incidentId) →
      (joinIncident now userId incidentId socketId store).filter (sameKey u' i') =
        store.filter (sameKey u' i') := by
    intro u' i' hne
    unfold joinIncident
    rw [List.filter_append]
    have himp : ∀ p, sameKey u' i' p = true →
        (!(sameKey userId (some incidentId) p)) = true := by
      intro p hp
      simp only [sameKey, Bool.and_eq_true, beq_iff_eq] at hp
      simp only [sameKey, Bool.not_eq_true', Bool.and_eq_false_iff]
      by_contra hcon
      push_neg at hcon
      obtain ⟨h1, h2⟩ := hcon
      rw [Bool.ne_false_iff, beq_iff_eq] at h1 h2
      exact hne ⟨hp.1.symm.trans h1, hp.2.symm.trans h2⟩
    rw [filter_filter_of_imp himp store]
    have he : sameKey u' i'
        { userId := userId, incidentId := some incidentId, socketId := socketId,
          lastActiveAt := now } = false := by
      simp only [sameKey, Bool.and_eq_false_iff]
      by_contra hcon
      push_neg at hcon
      obtain ⟨h1, h2⟩ := hcon
      rw [Bool.ne_false_iff, beq_iff_eq] at h1 h2
      exact hne ⟨h1.symm, h2.symm⟩
    simp [List.filter_cons, he]
  refine ⟨hkey now socketId store, hother, ?_, fun n2 s2 => hkey n2 s2 _⟩
  intro hb u' i'
  by_cases hk : u' = userId ∧ i' = some incidentId
  · obtain ⟨rfl, rfl⟩ := hk
    rw [hkey now socketId store]
    simp
  · rw [hother u' i' hk]
    exact hb u' i'

/-- Witness for C7: joining on a concrete store holding one entry for
another principal leaves that entry's key untouched and makes the joining
pair's entries exactly the fresh one. -/
theorem c7_presence_join_witness :
    ((joinIncident 100 1 1 9 [pEntry]).filter (sameKey 1 (some 1)) =
      [{ userId := 1, incidentId := some 1, socketId := 9, lastActiveAt := 100 }])
    ∧ ((joinIncident 100 1 1 9 [pEntry]).filter (sameKey 2 (some 1)) =
        [pEntry].filter (sameKey 2 (some 1))) :=
  ⟨(c7_presence_join 100 1 1 9 [pEntry]).1,
   (c7_presence_join 100 1 1 9 [pEntry]).2.1 2 (some 1) (by decide)⟩

/-- Counterexample for C9: a session (socket 8) with presence entries on
two incidents sends a heartbeat; only the first matching entry is
refreshed — the second keeps its old `lastActiveAt`, refuting "all of its
presence entries are refreshed". -/
theorem c9_counterexample :
    updateActivity 99 8 [pEntry, pEntry2] =
      [{ userId := 2, incidentId := some 1, socketId := 8, lastActiveAt := 99 }, pEntry2]
    ∧ pEntry2.socketId = 8
    ∧ ¬(∀ p ∈ updateActivity 99 8 [pEntry, pEntry2],
        p.socketId = 8 → p.lastActiveAt = 99) :=
  ⟨by decide, by decide, by decide⟩

/-- C9 (amended). `Heartbeat(sessionId)` refreshes `lastActiveAt` of AT
MOST ONE presence entry — the first one whose sessionId matches; entries
before it (all non-matching) and after it (including further entries of the
same session) are unchanged; when no entry matches nothing changes; and no
field other than `lastActiveAt` of any entry is ever modified. -/
theorem c9_heartbeat (now sid : Nat) :
    (∀ (pre post : List PresenceEntry) (p : PresenceEntry),
      (∀ q ∈ pre, q.socketId ≠ sid) → p.socketId = sid →
      updateActivity now sid (pre ++ p :: post) =
        pre ++ { p with lastActiveAt := now } :: post)
    ∧ (∀ store : List PresenceEntry, (∀ q ∈ store, q.socketId ≠ sid) →
        updateActivity now sid store = store)
    ∧ (∀ store : List PresenceEntry,
        (updateActivity now sid store).map eraseLastActiveAt =
          store.map eraseLastActiveAt) := by
  refine ⟨?_, ?_, ?_⟩
  · intro pre
    induction pre with
    | nil =>
      intro post p hpre hp
      simp [updateActivity, hp]
    | cons q pre ih =>
      intro post p hpre hp
      have hq : q.socketId ≠ sid := hpre q (by simp)
      simp only [List.cons_append, updateActivity, if_neg hq, List.append_eq]
      rw [ih post p (fun r hr => hpre r (by simp [hr])) hp]
  · intro store
    induction store with
    | nil => intro h; rfl
    | cons q rest ih =>
      intro h
      have hq : q.socketId ≠ sid := h q (by simp)
      simp only [updateActivity, if_neg hq]
      rw [ih (fun r hr => h r (by simp [hr]))]
  · intro store
    induction store with
    | nil => rfl
    | cons q rest ih =>
      by_cases hq : q.socketId = sid
      · simp [updateActivity, hq, eraseLastActiveAt, ih]
      · simp [updateActivity, hq, ih]

/-- Witness for C9 (amended): heartbeat on a two-entry store of the same
session refreshes exactly the first entry. -/
theorem c9_heartbeat_witness :
    updateActivity 99 8 ([] ++ pEntry :: [pEntry2]) =
      [] ++ { pEntry with lastActiveAt := 99 } :: [pEntry2] :=
  (c9_heartbeat 99 8).1 [] [pEntry2] pEntry (by decide) (by decide)

theorem mapGet_mapSet_self {α : Type} (k : Nat) (v : α) :
    ∀ m : List (Nat × α), mapGet k (mapSet k v m) = some v := by
  intro m
  induction m with
  | nil => simp [mapGet, mapSet]
  | cons e m ih =>
    obtain ⟨k', v'⟩ := e
    by_cases he : k' = k
    · simp [mapGet, mapSet, he]
    · simp [mapGet, mapSet, he, ih]

theorem handleFocusUpdate_throttled (now : Int) (user : User) (color : String)
    (srv : FocusServer) (cmd : FocusCmd) (t : Int)
    (hget : mapGet user.id srv.focusThrottles = some t) (ht : t ≠ 0)
    (hlt : now - t < 100) :
    handleFocusUpdate now user color srv cmd = (srv, [], none) := by
  unfold handleFocusUpdate shouldThrottleFocus
  simp only [hget]
  rw [if_pos ⟨ht, hlt⟩]

theorem handleFocusUpdate_accepted (now : Int) (user : User) (color : String)
    (srv : FocusServer) (cmd : FocusCmd)
    (hsect : validSections.contains cmd.sect = true)
    (hfree : mapGet user.id srv.focusThrottles = none ∨
      ∃ t, mapGet user.id srv.focusThrottles = some t ∧ (t = 0 ∨ 100 ≤ now - t)) :
    handleFocusUpdate now user color srv cmd =
      ({ userFocusState := mapSet user.id
           { incidentId := cmd.incidentId, sect := cmd.sect, fieldId := cmd.fieldId,
             color := color, name := user.name, lastUpdate := now } srv.userFocusState
         focusThrottles := mapSet user.id now srv.focusThrottles },
       [mkFocusBroadcast user color cmd], none) := by
  have hsh : shouldThrottleFocus now user.id srv.focusThrottles =
      (false, mapSet user.id now srv.focusThrottles) := by
    unfold shouldThrottleFocus
    rcases hfree with hget | ⟨t, hget, hcase⟩
    · simp only [hget]
    · simp only [hget]
      rw [if_neg (by
        rintro ⟨h1, h2⟩
        rcases hcase with hc | hc
        · exact h1 hc
        · unfold FOCUS_THROTTLE_MS at h2
          omega)]
  have hcf : (!(validSections.contains cmd.sect)) = false := by rw [hsect]; rfl
  unfold handleFocusUpdate
  rw [hsh]
  dsimp only
  rw [if_neg (by rw [hcf]; simp)]

theorem runFocus_cons (user : User) (color : String) (srv : FocusServer)
    (t : Int) (c : FocusCmd) (rest : List (Int × FocusCmd)) :
    runFocus user color srv ((t, c) :: rest) =
      ((runFocus user color (handleFocusUpdate t user color srv c).1 rest).1,
       (handleFocusUpdate t user color srv c).2.1 ++
         (runFocus user color (handleFocusUpdate t user color srv c).1 rest).2) := rfl

theorem runFocus_spec (user : User) (color : String) :
    ∀ (cmds : List (Int × FocusCmd)) (srv : FocusServer) (lastAcc : Option Int),
    (∀ c ∈ cmds, validSections.contains c.2.sect = true) →
    (∀ c ∈ cmds, 0 < c.1) →
    mapGet user.id srv.focusThrottles = lastAcc →
    (∀ t, lastAcc = some t → 0 < t) →
    (runFocus user color srv cmds).2 =
      (claimAccepted lastAcc cmds).map (fun c => mkFocusBroadcast user color c.2) := by
  intro cmds
  induction cmds with
  | nil => intro srv lastAcc _ _ _ _; rfl
  | cons tc rest ih =>
    intro srv lastAcc hsect hpos hget hpos'
    obtain ⟨t, c⟩ := tc
    cases lastAcc with
    | none =>
      have hstep := handleFocusUpdate_accepted t user color srv c
        (hsect (t, c) (by simp)) (Or.inl hget)
      rw [runFocus_cons, hstep]
      have hget' : mapGet user.id (mapSet user.id t srv.focusThrottles) = some t :=
        mapGet_mapSet_self user.id t srv.focusThrottles
      rw [ih _ (some t) (fun d hd => hsect d (by simp [hd]))
        (fun d hd => hpos d (by simp [hd])) hget'
        (fun t' ht' => by cases ht'; exact hpos (t, c) (by simp))]
      simp [claimAccepted]
    | some la =>
      have hla : 0 < la := hpos' la rfl
      by_cases hlt : t - la < 100
      · have hstep := handleFocusUpdate_throttled t user color srv c la hget
          (by omega) hlt
        rw [runFocus_cons, hstep]
        rw [ih srv (some la) (fun d hd => hsect d (by simp [hd]))
          (fun d hd => hpos d (by simp [hd])) hget hpos']
        simp [claimAccepted, hlt]
      · have hstep := handleFocusUpdate_accepted t user color srv c
          (hsect (t, c) (by simp)) (Or.inr ⟨la, hget, Or.inr (by omega)⟩)
        rw [runFocus_cons, hstep]
        have hget' : mapGet user.id (mapSet user.id t srv.focusThrottles) = some t :=
          mapGet_mapSet_self user.id t srv.focusThrottles
        rw [ih _ (some t) (fun d hd => hsect d (by simp [hd]))
          (fun d hd => hpos d (by simp [hd])) hget'
          (fun t' ht' => by cases ht'; exact hpos (t, c) (by simp))]
        simp [claimAccepted, hlt]

/-- C8. Focus updates are throttled to at most one accepted update per
100 ms per principal: a command arriving less than 100 ms after the last
stamped one is dropped silently — the module state (focus entries AND
throttle map) is unchanged, no broadcast is emitted and no error is sent;
a command at least 100 ms after the last accepted one (or with no stamp
yet) is processed and relayed once to the incident room with the sender
excluded; and over any sequence of valid focus commands with positive
timestamps from one principal, the emitted `focus:updated` broadcasts are
exactly those of the claim's accepted subsequence (first command accepted,
then acceptance iff the gap from the last accepted command is at least
100 ms). -/
theorem c8_focus_throttle :
    (∀ (now : Int) (user : User) (color : String) (srv : FocusServer)
      (cmd : FocusCmd) (t : Int),
      mapGet user.id srv.focusThrottles = some t → t ≠ 0 → now - t < 100 →
      handleFocusUpdate now user color srv cmd = (srv, [], none))
    ∧ (∀ (now : Int) (user : User) (color : String) (srv : FocusServer) (cmd : FocusCmd),
        validSections.contains cmd.sect = true →
        (mapGet user.id srv.focusThrottles = none ∨
          ∃ t, mapGet user.id srv.focusThrottles = some t ∧ (t = 0 ∨ 100 ≤ now - t)) →
        ∃ srv', handleFocusUpdate now user color srv cmd =
          (srv', [mkFocusBroadcast user color cmd], none))
    ∧ (∀ (user : User) (color : String) (cmds : List (Int × FocusCmd)),
        (∀ c ∈ cmds, validSections.contains c.2.sect = true) →
        (∀ c ∈ cmds, 0 < c.1) →
        ∀ srv : FocusServer, mapGet user.id srv.focusThrottles = none →
        (runFocus user color srv cmds).2 =
          (claimAccepted none cmds).map (fun c => mkFocusBroadcast user color c.2)) := by
  refine ⟨handleFocusUpdate_throttled, ?_, ?_⟩
  · intro now user color srv cmd hsect hfree
    exact ⟨_, handleFocusUpdate_accepted now user color srv cmd hsect hfree⟩
  · intro user color cmds hsect hpos srv hget
    exact runFocus_spec user color cmds srv none hsect hpos hget (by intro t ht; cases ht)

/-- Witness for C8: three `status`-section commands at t = 1000, 1050,
1100 from one principal starting from empty module state produce exactly
two broadcasts — the one at 1050 (gap 50 ms) is silently dropped, the one
at 1100 (gap 100 ms from the accepted 1000) goes through. -/
theorem c8_focus_throttle_witness :
    (runFocus adminUser "blue" { userFocusState := [], focusThrottles := [] }
        [(1000, focusCmdA), (1050, focusCmdA), (1100, focusCmdA)]).2 =
      [mkFocusBroadcast adminUser "blue" focusCmdA,
       mkFocusBroadcast adminUser "blue" focusCmdA] := by
  have h := c8_focus_throttle.2.2 adminUser "blue"
    [(1000, focusCmdA), (1050, focusCmdA), (1100, focusCmdA)]
    (by decide) (by decide) { userFocusState := [], focusThrottles := [] } rfl
  rw [h]
  rfl

/-- C10. Registration assigns roles without authentication: the route is a
function of the request body alone (no principal parameter — no middleware
guards it); a request without a role field yields a user with role
`responder`, which is a writer role (`WRITE_ROLES`); and a caller-supplied
role is stored verbatim whenever it parses as one of
{admin, responder, viewer} — in particular `"admin"` does. -/
theorem c10_registration_roles (newId : Nat) (body : RegisterBody)
    (existing : List String) (email password name : String)
    (hemail : body.email = some email) (hpw : body.password = some password)
    (hname : body.name = some name)
    (he : email ≠ "") (hp : password ≠ "") (hn : name ≠ "")
    (hfresh : existing.contains email = false) :
    (body.role = none →
      registerRoute newId body existing =
        Except.ok { id := newId, email := email, name := name, role := Role.responder }
      ∧ canWrite { id := newId, email := email, name := name, role := Role.responder } = true)
    ∧ (∀ (roleStr : String) (r : Role), body.role = some roleStr →
        roleOfString roleStr = some r →
        registerRoute newId body existing =
          Except.ok { id := newId, email := email, name := name, role := r })
    ∧ roleOfString "admin" = some Role.admin := by
  have hroute : registerRoute newId body existing =
      register newId email password name body.role existing := by
    unfold registerRoute
    rw [hemail, hpw, hname]
    rw [if_neg (by simp [truthy, he, hp, hn])]
    rfl
  refine ⟨?_, ?_, rfl⟩
  · intro hrole
    constructor
    · rw [hroute]
      unfold register
      rw [hrole]
      rw [if_neg (by rw [hfresh]; simp)]
      rfl
    · rfl
  · intro roleStr r hrole hr
    rw [hroute]
    unfold register
    rw [hrole]
    rw [if_neg (by rw [hfresh]; simp)]
    unfold userCreate
    rw [show (some roleStr).getD "responder" = roleStr from rfl, hr]

/-- Witness for C10: registering with role `"admin"` and no authentication
context yields an admin user; registering without a role yields a
responder, who can write. -/
theorem c10_registration_roles_witness :
    (registerRoute 9 regBodyAdmin [] =
      Except.ok { id := 9, email := "x@y.z", name := "X", role := Role.admin })
    ∧ (registerRoute 10 regBodyNoRole [] =
        Except.ok { id := 10, email := "n@y.z", name := "N", role := Role.responder }
      ∧ canWrite { id := 10, email := "n@y.z", name := "N", role := Role.responder } = true) :=
  ⟨(c10_registration_roles 9 regBodyAdmin [] "x@y.z" "pw" "X" rfl rfl rfl
      (by decide) (by decide) (by decide) rfl).2.1 "admin" Role.admin rfl rfl,
   (c10_registration_roles 10 regBodyNoRole [] "n@y.z" "pw" "N" rfl rfl rfl
      (by decide) (by decide) (by decide) rfl).1 rfl⟩

end IncidentPlatform
